import Mathlib

/-!
Shallow embedding of the log-collector daemon (alert engine, telemetry queue
and poster loop, suppression checker, log tailer and line classifier,
monitored-files control API), together with theorems settling the claims
about its specification.

Time values and metric percentages (Python `time.time()` floats, DB
timestamps) are modelled as integers.  Python truthiness of optional
timestamps (`if x:` is false for both `None` and `0.0`) is modelled
explicitly by `truthy`.
-/

namespace Daemon

/-! ## Alert engine (`alert_manager.py`, `alert_config.py`) -/

/-- One entry of `ALERT_THRESHOLDS` in `alert_config.py`. -/
structure AlertConfig where
  threshold : ℤ
  duration : ℤ
  priority : String
  cooldown : ℤ
  deriving DecidableEq, Repr

def cpu_critical : AlertConfig := ⟨90, 300, "critical", 1800⟩
def cpu_high : AlertConfig := ⟨75, 600, "high", 3600⟩
def memory_critical : AlertConfig := ⟨95, 300, "critical", 1800⟩
def memory_high : AlertConfig := ⟨85, 600, "high", 3600⟩
def disk_critical : AlertConfig := ⟨90, 0, "critical", 7200⟩
def disk_high : AlertConfig := ⟨80, 0, "high", 14400⟩
def high_process_count : AlertConfig := ⟨500, 300, "medium", 3600⟩

/-- Python truthiness of an optional timestamp: `None` and `0.0` are falsy. -/
def truthy : Option ℤ → Bool
  | none => false
  | some t => t != 0

/-- Per-alert-kind mutable state of `AlertManager`: the
`alert_start_times[k]` and `last_alert_sent[k]` defaultdict entries. -/
structure AlertState where
  alert_start_time : Option ℤ
  last_alert_sent : Option ℤ
  deriving DecidableEq, Repr

/-- Fresh state: both defaultdicts return `None`. -/
def AlertState.fresh : AlertState := ⟨none, none⟩

/-- Tail of `AlertManager._handle_threshold_alert` after the cooldown check:
first-breach tracking, then the duration check and emission.  Returns the new
state and whether an alert was emitted (`_send_alert` called). -/
def after_cooldown_check (cfg : AlertConfig) (st : AlertState) (now : ℤ) :
    AlertState × Bool :=
  if truthy st.alert_start_time = false then
    ({ st with alert_start_time := some now }, false)
  else
    match st.alert_start_time with
    | some t1 =>
        if cfg.duration ≤ now - t1 then
          ({ alert_start_time := none, last_alert_sent := some now }, true)
        else (st, false)
    | none => (st, false)

/-- `AlertManager._handle_threshold_alert`.  The guard
`if self.last_alert_sent[alert_type]:` uses Python truthiness. -/
def handle_threshold_alert (cfg : AlertConfig) (st : AlertState) (now : ℤ) :
    AlertState × Bool :=
  if truthy st.last_alert_sent = true ∧ now - st.last_alert_sent.getD 0 < cfg.cooldown
  then (st, false)
  else after_cooldown_check cfg st now

/-- `AlertManager._reset_alert`: clears `alert_start_times[k]` only when it is
truthy. -/
def reset_alert (st : AlertState) : AlertState :=
  if truthy st.alert_start_time = true then { st with alert_start_time := none }
  else st

/-- Paired critical/high state for one metric. -/
structure MetricAlertStates where
  crit : AlertState
  high : AlertState
  deriving DecidableEq, Repr

def MetricAlertStates.fresh : MetricAlertStates := ⟨.fresh, .fresh⟩

/-- The shared shape of `check_cpu_alert`, `check_memory_alert` and
`check_disk_alert`: an if/elif/else cascade over the critical and high
thresholds.  Returns the new pair of states and the flags
(critical-emitted, high-emitted). -/
def check_metric_alert (ccfg hcfg : AlertConfig) (sts : MetricAlertStates)
    (value now : ℤ) : MetricAlertStates × Bool × Bool :=
  if ccfg.threshold ≤ value then
    let r := handle_threshold_alert ccfg sts.crit now
    ({ sts with crit := r.1 }, r.2, false)
  else if hcfg.threshold ≤ value then
    let r := handle_threshold_alert hcfg sts.high now
    ({ sts with high := r.1 }, false, r.2)
  else
    ({ crit := reset_alert sts.crit, high := reset_alert sts.high }, false, false)

/-- One evaluation of a single alert kind on one sample: `over = true` runs
`_handle_threshold_alert` at the sample instant, `over = false` runs
`_reset_alert`.  `alert_run` collects the emission instants of a sample
sequence. -/
def alert_step (cfg : AlertConfig) (st : AlertState) (s : ℤ × Bool) :
    AlertState × Option ℤ :=
  if s.2 then
    let r := handle_threshold_alert cfg st s.1
    (r.1, if r.2 then some s.1 else none)
  else (reset_alert st, none)

def alert_run (cfg : AlertConfig) (st : AlertState) : List (ℤ × Bool) → List ℤ
  | [] => []
  | s :: rest =>
      let r := alert_step cfg st s
      match r.2 with
      | some t => t :: alert_run cfg r.1 rest
      | none => alert_run cfg r.1 rest

/-! ## Telemetry queue (`telemetry_queue.py`)

The SQLite table `telemetry_queue` is modelled as a list of entries in
insertion (rowid) order; `id` is the `INTEGER PRIMARY KEY AUTOINCREMENT`
column, `ts` the `timestamp` column, `retry` the `retry_count` column. -/

structure QEntry where
  id : ℕ
  ts : ℤ
  retry : ℕ
  deriving DecidableEq, Repr

/-- The row selected by `SELECT id FROM telemetry_queue ORDER BY timestamp
ASC LIMIT 1`: the first row attaining the minimal timestamp. -/
def oldest? : List QEntry → Option QEntry
  | [] => none
  | e :: rest =>
      match oldest? rest with
      | none => some e
      | some m => if e.ts ≤ m.ts then some e else some m

/-- `TelemetryQueue.enqueue`: when `COUNT(*) >= max_size`, delete the single
oldest row (by its id), then insert the new row with `retry_count = 0`. -/
def enqueue (maxSize : ℕ) (q : List QEntry) (newId : ℕ) (ts : ℤ) : List QEntry :=
  let q1 :=
    if maxSize ≤ q.length then
      match oldest? q with
      | none => q
      | some m => q.filter (fun e => e.id ≠ m.id)
    else q
  q1 ++ [⟨newId, ts, 0⟩]

/-- `TelemetryQueue.mark_sent`: `DELETE FROM telemetry_queue WHERE id = ?`. -/
def mark_sent (q : List QEntry) (sid : ℕ) : List QEntry :=
  q.filter (fun e => e.id ≠ sid)

/-- `TelemetryQueue.mark_failed`: increment `retry_count` for the row, then
re-read it; if `retry_count >= max_retries` delete the row and return
`false`, else return `true`. -/
def mark_failed (q : List QEntry) (sid : ℕ) (maxRetries : ℕ) :
    List QEntry × Bool :=
  let q1 := q.map (fun e => if e.id = sid then { e with retry := e.retry + 1 } else e)
  match q1.find? (fun e => e.id == sid) with
  | some e =>
      if maxRetries ≤ e.retry then (q1.filter (fun x => x.id ≠ sid), false)
      else (q1, true)
  | none => (q1, true)

/-- Insertion sort by timestamp, modelling `ORDER BY timestamp ASC`. -/
def insert_by_ts (e : QEntry) : List QEntry → List QEntry
  | [] => [e]
  | x :: xs => if e.ts ≤ x.ts then e :: x :: xs else x :: insert_by_ts e xs

def sort_by_ts : List QEntry → List QEntry
  | [] => []
  | e :: rest => insert_by_ts e (sort_by_ts rest)

/-- `TelemetryQueue.dequeue`: oldest-first batch of at most `limit` rows. -/
def dequeue (q : List QEntry) (limit : ℕ) : List QEntry :=
  (sort_by_ts q).take limit

/-- The queue operations reachable from the daemon's loops. -/
inductive QOp where
  | enq (id : ℕ) (ts : ℤ)
  | sent (id : ℕ)
  | failed (id : ℕ) (maxRetries : ℕ)
  deriving DecidableEq, Repr

def q_apply (maxSize : ℕ) (q : List QEntry) : QOp → List QEntry
  | .enq i ts => enqueue maxSize q i ts
  | .sent i => mark_sent q i
  | .failed i m => (mark_failed q i m).1

def run_queue (maxSize : ℕ) : List QOp → List QEntry → List QEntry
  | [], q => q
  | op :: rest, q => run_queue maxSize rest (q_apply maxSize q op)

/-! ## Telemetry poster (`telemetry_poster.py`) and the daemon's POST loop
(`log_collector_daemon.py`, `_telemetry_post_loop`) -/

/-- Outcome of one HTTP POST attempt as seen by `post_snapshot`. -/
inductive HttpAttempt where
  | resp (status : ℕ)
  | connFailure
  | timedOut
  | requestFailure
  | otherFailure
  deriving DecidableEq, Repr

inductive PostError where
  | client_error
  | server_error
  | connection_error
  | timeout
  | request_error
  | unknown_error
  deriving DecidableEq, Repr

/-- `TelemetryPoster.post_snapshot`: 200 is success; 4xx is `client_error`;
any other status is `server_error`; exceptions map to their own classes. -/
def post_snapshot : HttpAttempt → Bool × Option PostError
  | .resp s =>
      if s = 200 then (true, none)
      else if 400 ≤ s ∧ s < 500 then (false, some .client_error)
      else (false, some .server_error)
  | .connFailure => (false, some .connection_error)
  | .timedOut => (false, some .timeout)
  | .requestFailure => (false, some .request_error)
  | .otherFailure => (false, some .unknown_error)

def retry_backoff : List ℕ := [5, 15, 60]

/-- `TelemetryPoster.post_with_retry`: returns `true` on success, `false`
immediately on a client error (no retry), and otherwise retries while
`retry_count < len(retry_backoff)`.  `attempts n` is the outcome of the
attempt made at retry count `n`. -/
def post_with_retry (attempts : ℕ → HttpAttempt) (retry_count : ℕ) : Bool :=
  let r := post_snapshot (attempts retry_count)
  if r.1 then true
  else if r.2 = some .client_error then false
  else if h : retry_count < retry_backoff.length then
    post_with_retry attempts (retry_count + 1)
  else false
termination_by retry_backoff.length - retry_count
decreasing_by omega

/-- One snapshot's handling in `_telemetry_post_loop`: on success the entry
is `mark_sent`, on any failure it is `mark_failed` with `max_retries=3`. -/
def telemetry_cycle_entry (q : List QEntry) (e : QEntry)
    (attempts : ℕ → HttpAttempt) : List QEntry :=
  if post_with_retry attempts e.retry then mark_sent q e.id
  else (mark_failed q e.id 3).1

/-! ## Suppression checker (`suppression_checker.py`)

The `suppression_rules` table is modelled as a list of rows; `id` is the
primary key.  `should_suppress` is modelled on the fresh-cache path: the
cache is the result of `_load_rules` at the current instant. -/

structure SRule where
  id : ℕ
  name : String
  match_text : String
  node_ip : Option String
  duration_type : String
  expires_at : Option ℤ
  enabled : Bool
  match_count : ℕ
  deriving DecidableEq, Repr

/-- Python `str.lower()` on the ASCII strings at issue. -/
def lower_str (s : String) : List Char := s.toList.map Char.toLower

/-- Python's substring test `pat in hay` (on lists of characters). -/
def isSubstr (pat : List Char) : List Char → Bool
  | [] => pat.isEmpty
  | c :: t => pat.isPrefixOf (c :: t) || isSubstr pat t

/-- `SuppressionRuleChecker._load_rules`: the SQL filter
`enabled = true AND (expires_at IS NULL OR expires_at > NOW())`. -/
def load_rules (now : ℤ) (db : List SRule) : List SRule :=
  db.filter (fun r => r.enabled &&
    (match r.expires_at with
     | none => true
     | some t => decide (now < t)))

/-- `SuppressionRuleChecker._matches_rule`: node scope check, then
case-insensitive substring match. -/
def matches_rule (error_message node_id : String) (r : SRule) : Bool :=
  (match r.node_ip with
   | some nip => nip == node_id
   | none => true) &&
  isSubstr (lower_str r.match_text) (lower_str error_message)

/-- `SuppressionRuleChecker.should_suppress` over the loaded rule cache:
first matching rule in ascending-id (`ORDER BY id`) order, `none` when no
rule matches (including the empty-cache early return). -/
def should_suppress (error_message node_id : String) (rules : List SRule) :
    Option SRule :=
  rules.find? (matches_rule error_message node_id)

/-- `SuppressionRuleChecker._increment_match_count`:
`UPDATE suppression_rules SET match_count = match_count + 1 WHERE id = %s`. -/
def increment_match_count (db : List SRule) (rid : ℕ) : List SRule :=
  db.map (fun r => if r.id = rid then { r with match_count := r.match_count + 1 } else r)

/-- The `match_count` of the row with the given id (`SELECT` by primary key). -/
def find_count (db : List SRule) (rid : ℕ) : Option ℕ :=
  (db.find? (fun r => r.id == rid)).map SRule.match_count

/-! ## Line classifier and monitor loop (`log_collector_daemon.py`) -/

def ERROR_KEYWORDS : List String :=
  ["emerg", "emergency", "alert", "crit", "critical",
   "err", "error", "fail", "failed", "failure", "panic", "fatal"]

/-- Regex word characters (`\w`) for the ASCII lines at issue. -/
def isWordChar (c : Char) : Bool := c.isAlphanum || c == '_'

/-- Whether keyword `kw` matches at the start of `s` with `\b` on both sides,
`prev` being the character just before this position. -/
def word_at (kw s : List Char) (prev : Option Char) : Bool :=
  kw.isPrefixOf s &&
  (match prev with
   | none => true
   | some c => !isWordChar c) &&
  (match s.drop kw.length with
   | [] => true
   | c :: _ => !isWordChar c)

def word_occurs_aux (kw : List Char) (prev : Option Char) : List Char → Bool
  | [] => false
  | c :: t => word_at kw (c :: t) prev || word_occurs_aux kw (some c) t

/-- The emission gate `self._err_re.search(line)` where
`_err_re = re.compile(rf"\b({kw})\b", re.IGNORECASE)` over `ERROR_KEYWORDS`
(case-insensitivity modelled by lowering the line; the keywords are already
lowercase). -/
def err_re_search (line : String) : Bool :=
  ERROR_KEYWORDS.any (fun k => word_occurs_aux k.toList none (lower_str line))

def contains_kw (text : List Char) (k : String) : Bool :=
  isSubstr k.toList text

/-- `detect_severity`. -/
def detect_severity (line : String) : String :=
  let text := lower_str line
  if ["panic", "fatal", "critical", "crit"].any (contains_kw text) then "critical"
  else if ["fail", "failed", "failure"].any (contains_kw text) then "failure"
  else if ["err", "error"].any (contains_kw text) then "error"
  else if ["warn", "warning"].any (contains_kw text) then "warn"
  else "info"

def CRITICAL_KEYWORDS : List String :=
  ["fatal", "panic", "critical", "emergency", "segmentation fault",
   "core dump", "out of memory", "system halt", "kernel panic"]

def HIGH_KEYWORDS : List String :=
  ["error", "failed", "failure", "exception", "traceback",
   "denied", "refused", "timeout", "unreachable"]

/-- `determine_priority`. -/
def determine_priority (log_line severity : String) : String :=
  let log_lower := lower_str log_line
  if CRITICAL_KEYWORDS.any (contains_kw log_lower) then "critical"
  else if HIGH_KEYWORDS.any (contains_kw log_lower) then "high"
  else if severity ≠ "" ∧ (["fatal", "critical", "emergency"].map String.toList).contains
      (lower_str severity) then "critical"
  else if severity ≠ "" ∧ (["error", "err", "failure"].map String.toList).contains
      (lower_str severity) then "high"
  else if severity ≠ "" ∧ (["warning", "warn"].map String.toList).contains
      (lower_str severity) then "medium"
  else "low"

/-- The self-loop guard markers skipped by `_monitor_loop`. -/
def SKIP_MARKERS : List String :=
  ["Issue detected", "[SUPPRESSED]", "Error checking suppression",
   "Backend error reporting", "Daemon initialization", "Configuration store",
   "Health check", "Component", "log_collector_daemon.py", "[AlertManager]",
   "[ProcessMonitor]", "[TelemetryQueue]", "[TelemetryPoster]", "[Config]",
   "[MachineUUID]", "[Self-Monitoring]", "Resolvix Daemon Starting",
   "Log entry sent to RabbitMQ", "sent to RabbitMQ",
   "Control command received", "Heartbeat", "Livelogs", "Telemetry"]

def marker_skip (line : String) : Bool :=
  SKIP_MARKERS.any (fun m => isSubstr m.toList line.toList)

structure LogPayload where
  log_line : String
  severity : String
  priority : String
  deriving DecidableEq, Repr

/-- Per-line processing in `_monitor_loop` (suppression checker absent):
skip self-loop markers, apply the error-keyword gate, then classify. -/
def process_line (line : String) : Option LogPayload :=
  if marker_skip line then none
  else if err_re_search line then
    some ⟨line, detect_severity line, determine_priority line (detect_severity line)⟩
  else none

/-! ## Log tailer iteration (`_monitor_loop`, lines 694-792)

The file handle opened once before the loop is modelled by the generation
number `gen` of the file it refers to and the read position `pos`; the
contents of generation `g` of the path are `contents g`.  A rotation
replaces the file at the path by a new generation, which the open handle
does not follow.  One loop iteration: while disabled, sleep; otherwise
`readline()`; an empty read sleeps `interval` seconds and retries — the
loop body contains no re-open of the path. -/

structure TailState where
  gen : ℕ
  pos : ℕ
  deriving DecidableEq, Repr

def monitor_iter (contents : ℕ → List String) (enabled : Bool) (st : TailState) :
    TailState × Option String :=
  if !enabled then (st, none)
  else
    match (contents st.gen).get? st.pos with
    | none => (st, none)
    | some line => ({ st with pos := st.pos + 1 }, some line)

/-- `n` iterations of the monitor loop, collecting the emitted payloads. -/
def monitor_run (contents : ℕ → List String) (enabled : Bool) (st : TailState) :
    ℕ → TailState × List LogPayload
  | 0 => (st, [])
  | n + 1 =>
      let r := monitor_iter contents enabled st
      let rest := monitor_run contents enabled r.1 n
      (rest.1,
        (match r.2 with
         | some line =>
             match process_line line with
             | some p => [p]
             | none => []
         | none => []) ++ rest.2)

/-- A rotated path: generation 0 is the old file (fully read), generation 1
is the file now at the path, holding an unread error line. -/
def rot_contents : ℕ → List String :=
  fun g => if g = 0 then ["old fail line"] else ["new error line"]

/-! ## Monitored-files control API (`log_collector_daemon.py`,
`update_monitored_file` and `delete_monitored_file`) -/

/-- One entry of `daemon.log_files`. -/
structure MonFile where
  id : String
  path : String
  label : String
  priority : String
  enabled : Bool
  auto_monitor : Bool
  deriving DecidableEq, Repr

/-- The JSON body of a PUT request (`label`, `priority`, `enabled` keys). -/
structure UpdateData where
  label : Option String
  priority : Option String
  enabled : Option Bool
  deriving DecidableEq, Repr

def VALID_PRIORITIES : List String := ["critical", "high", "medium", "low"]

/-- Field updates of the PUT endpoint after the auto-monitor check: the label
is written first, then the priority is validated (an invalid priority
returns 400 with the label already mutated), then `enabled` is written. -/
def apply_update_fields (f : MonFile) (d : UpdateData) : MonFile × ℕ :=
  let f1 := match d.label with
    | some l => { f with label := l }
    | none => f
  match d.priority with
  | some p =>
      if VALID_PRIORITIES.contains p = false then (f1, 400)
      else
        let f2 := { f1 with priority := p }
        let f3 := match d.enabled with
          | some e => { f2 with enabled := e }
          | none => f2
        (f3, 200)
  | none =>
      let f3 := match d.enabled with
        | some e => { f1 with enabled := e }
        | none => f1
      (f3, 200)

/-- Scan of `daemon.log_files` for the first id match in the PUT endpoint;
an auto-monitored match with `enabled: false` is rejected with 400 and the
list is left unchanged. -/
def update_files (fid : String) (d : UpdateData) : List MonFile → List MonFile × ℕ
  | [] => ([], 404)
  | f :: rest =>
      if f.id == fid then
        if f.auto_monitor = true ∧ d.enabled = some false then (f :: rest, 400)
        else
          let r := apply_update_fields f d
          (r.1 :: rest, r.2)
      else
        let r := update_files fid d rest
        (f :: r.1, r.2)

/-- `PUT /api/monitored-files/:id`: empty body check, then find-and-update. -/
def update_monitored_file (files : List MonFile) (fid : String) (d : UpdateData) :
    List MonFile × ℕ :=
  if d.label = none ∧ d.priority = none ∧ d.enabled = none then (files, 400)
  else update_files fid d files

/-- Scan of `daemon.log_files` for the first id match in the DELETE endpoint;
an auto-monitored match is rejected with 400, otherwise the entry is popped. -/
def delete_files (fid : String) : List MonFile → List MonFile × ℕ
  | [] => ([], 404)
  | f :: rest =>
      if f.id == fid then
        if f.auto_monitor then (f :: rest, 400) else (rest, 200)
      else
        let r := delete_files fid rest
        (f :: r.1, r.2)

/-- `DELETE /api/monitored-files/:id`. -/
def delete_monitored_file (files : List MonFile) (fid : String) :
    List MonFile × ℕ :=
  delete_files fid files

/-- A control-API request against the monitored-file list. -/
inductive ApiOp where
  | put (fid : String) (d : UpdateData)
  | del (fid : String)

def api_apply (files : List MonFile) : ApiOp → List MonFile
  | .put fid d => (update_monitored_file files fid d).1
  | .del fid => (delete_monitored_file files fid).1

def run_api : List ApiOp → List MonFile → List MonFile
  | [], files => files
  | op :: rest, files => run_api rest (api_apply files op)

/-- A one-rule store used to witness the suppression contract. -/
def suppression_demo_db : List SRule :=
  [⟨1, "rule-1", "Disk Full", some "10.0.0.5", "until", some 200, true, 5⟩]

/-- A two-entry monitored-file list: the daemon's own log (auto-monitor,
enabled) and an ordinary source. -/
def demo_files : List MonFile :=
  [⟨"file_001", "/var/log/resolvix.log", "resolvix_daemon", "critical", true, true⟩,
   ⟨"file_002", "/var/log/syslog", "system", "high", true, false⟩]

lemma reset_alert_last (st : AlertState) :
    (reset_alert st).last_alert_sent = st.last_alert_sent := by
  unfold reset_alert; split <;> rfl

lemma handle_emit_last {cfg : AlertConfig} {st st' : AlertState} {now : ℤ}
    (h : handle_threshold_alert cfg st now = (st', true)) :
    st'.last_alert_sent = some now := by
  unfold handle_threshold_alert after_cooldown_check at h
  split at h
  · exact absurd (congrArg Prod.snd h) (by simp)
  · split at h
    · exact absurd (congrArg Prod.snd h) (by simp)
    · split at h
      · split at h
        · cases h; rfl
        · exact absurd (congrArg Prod.snd h) (by simp)
      · exact absurd (congrArg Prod.snd h) (by simp)

lemma handle_no_emit_last {cfg : AlertConfig} {st st' : AlertState} {now : ℤ}
    (h : handle_threshold_alert cfg st now = (st', false)) :
    st'.last_alert_sent = st.last_alert_sent := by
  unfold handle_threshold_alert after_cooldown_check at h
  split at h
  · cases h; rfl
  · split at h
    · cases h; rfl
    · split at h
      · split at h
        · exact absurd (congrArg Prod.snd h) (by simp)
        · cases h; rfl
      · cases h; rfl

lemma handle_emit_cooldown {cfg : AlertConfig} {st st' : AlertState} {now t0 : ℤ}
    (hl : st.last_alert_sent = some t0) (ht : t0 ≠ 0)
    (h : handle_threshold_alert cfg st now = (st', true)) :
    cfg.cooldown ≤ now - t0 := by
  unfold handle_threshold_alert at h
  split at h
  · exact absurd (congrArg Prod.snd h) (by simp)
  · rename_i hcond
    rw [not_and] at hcond
    have htr : truthy st.last_alert_sent = true := by
      rw [hl]; simpa [truthy] using ht
    have := hcond htr
    rw [hl] at this
    simpa using le_of_not_lt this

lemma alert_step_emit {cfg : AlertConfig} {st st' : AlertState} {s : ℤ × Bool} {t : ℤ}
    (h : alert_step cfg st s = (st', some t)) :
    t = s.1 ∧ st'.last_alert_sent = some s.1 ∧
      handle_threshold_alert cfg st s.1 = (st', true) := by
  unfold alert_step at h
  split at h
  · rcases hr : handle_threshold_alert cfg st s.1 with ⟨a, b⟩
    rw [hr] at h
    cases b with
    | true =>
      simp only [Prod.mk.injEq] at h
      rcases h with ⟨h1, h2⟩
      simp only [if_true] at h2
      rcases Option.some.inj h2.symm with rfl
      subst h1
      exact ⟨rfl, handle_emit_last hr, rfl⟩
    | false => exact absurd (congrArg Prod.snd h) (by simp)
  · exact absurd (congrArg Prod.snd h) (by simp)

lemma alert_step_no_emit {cfg : AlertConfig} {st st' : AlertState} {s : ℤ × Bool}
    (h : alert_step cfg st s = (st', none)) :
    st'.last_alert_sent = st.last_alert_sent := by
  unfold alert_step at h
  split at h
  · rcases hr : handle_threshold_alert cfg st s.1 with ⟨a, b⟩
    rw [hr] at h
    cases b with
    | true => exact absurd (congrArg Prod.snd h) (by simp)
    | false => cases h; exact handle_no_emit_last hr
  · cases h; exact reset_alert_last st

/-- Main cooldown invariant: along any run, consecutive emission instants are
at least `cooldown` apart, and the first emission is at least `cooldown`
after any truthy `last_alert_sent` carried in from the initial state. -/
lemma alert_run_chain (cfg : AlertConfig) :
    ∀ (samples : List (ℤ × Bool)) (st : AlertState),
      (∀ s ∈ samples, 0 < s.1) →
      (alert_run cfg st samples).Chain' (fun a b => cfg.cooldown ≤ b - a) ∧
      (∀ t0, st.last_alert_sent = some t0 → 0 < t0 →
        ∀ e ∈ (alert_run cfg st samples).head?, cfg.cooldown ≤ e - t0) := by
  intro samples
  induction samples with
  | nil =>
    intro st _
    exact ⟨List.chain'_nil, by intro t0 _ _ e he; simp [alert_run] at he⟩
  | cons s rest ih =>
    intro st hpos
    have hs : 0 < s.1 := hpos s (List.mem_cons_self s rest)
    have hrest : ∀ x ∈ rest, 0 < x.1 := fun x hx => hpos x (List.mem_cons_of_mem s hx)
    rcases hstep : alert_step cfg st s with ⟨st', em⟩
    cases em with
    | none =>
      have hlast := alert_step_no_emit hstep
      have hrun : alert_run cfg st (s :: rest) = alert_run cfg st' rest := by
        rw [alert_run, hstep]
      rcases ih st' hrest with ⟨hchain, hhead⟩
      refine ⟨hrun ▸ hchain, ?_⟩
      intro t0 h0 hpos0 e he
      rw [hrun] at he
      exact hhead t0 (hlast.trans h0) hpos0 e he
    | some t =>
      rcases alert_step_emit hstep with ⟨ht, hlast, hhandle⟩
      have hrun : alert_run cfg st (s :: rest) = t :: alert_run cfg st' rest := by
        rw [alert_run, hstep]
      rcases ih st' hrest with ⟨hchain, hhead⟩
      have hheadt : ∀ e ∈ (alert_run cfg st' rest).head?, cfg.cooldown ≤ e - t := by
        intro e he
        have := hhead s.1 hlast hs e he
        rw [ht]; exact this
      constructor
      · rw [hrun]
        exact List.chain'_cons'.mpr ⟨hheadt, hchain⟩
      · intro t0 h0 hpos0 e he
        rw [hrun] at he
        simp only [List.head?_cons, Option.mem_def, Option.some.injEq] at he
        subst he
        rw [ht]
        exact handle_emit_cooldown h0 (ne_of_gt hpos0) hhandle

lemma truthy_reset_alert (st : AlertState) :
    truthy (reset_alert st).alert_start_time = false := by
  unfold reset_alert
  split
  · rfl
  · rename_i h
    exact Bool.eq_false_iff.mpr fun hc => h hc

/-! ### Queue lemmas -/

lemma oldest?_cons_isSome (x : QEntry) (xs : List QEntry) :
    ∃ m, oldest? (x :: xs) = some m := by
  rcases hr : oldest? xs with _ | m'
  · exact ⟨x, by simp [oldest?, hr]⟩
  · by_cases h : x.ts ≤ m'.ts
    · exact ⟨x, by simp [oldest?, hr, if_pos h]⟩
    · exact ⟨m', by simp [oldest?, hr, if_neg h]⟩

lemma oldest?_mem : ∀ {q : List QEntry} {m : QEntry}, oldest? q = some m → m ∈ q := by
  intro q
  induction q with
  | nil => intro m h; cases h
  | cons x xs ih =>
    intro m h
    rcases hr : oldest? xs with _ | m'
    · simp only [oldest?, hr] at h
      obtain rfl := Option.some.inj h
      exact List.mem_cons_self x xs
    · simp only [oldest?, hr] at h
      split at h
      · obtain rfl := Option.some.inj h
        exact List.mem_cons_self x xs
      · obtain rfl := Option.some.inj h
        exact List.mem_cons_of_mem x (ih hr)

lemma oldest?_min : ∀ {q : List QEntry} {m : QEntry}, oldest? q = some m →
    ∀ e ∈ q, m.ts ≤ e.ts := by
  intro q
  induction q with
  | nil => intro m h; cases h
  | cons x xs ih =>
    intro m h e he
    rcases hr : oldest? xs with _ | m'
    · simp only [oldest?, hr] at h
      obtain rfl := Option.some.inj h
      rcases List.mem_cons.mp he with rfl | hx
      · exact le_refl _
      · exact absurd hr (by
          cases xs with
          | nil => cases hx
          | cons y ys =>
            obtain ⟨m'', hm''⟩ := oldest?_cons_isSome y ys
            simp [hm''])
    · simp only [oldest?, hr] at h
      split at h <;> rename_i hle <;> obtain rfl := Option.some.inj h
      · rcases List.mem_cons.mp he with rfl | hx
        · exact le_refl _
        · exact le_trans hle (ih hr e hx)
      · rcases List.mem_cons.mp he with rfl | hx
        · exact le_of_not_le hle
        · exact ih hr e hx

lemma length_filter_lt_of_mem {q : List QEntry} {m : QEntry} (hm : m ∈ q) :
    (q.filter (fun e => e.id ≠ m.id)).length < q.length := by
  induction q with
  | nil => cases hm
  | cons x xs ih =>
    rcases List.mem_cons.mp hm with rfl | hx
    · rw [List.filter_cons_of_neg (by simp)]
      exact Nat.lt_succ_of_le (List.length_filter_le _ _)
    · by_cases hpx : x.id ≠ m.id
      · rw [List.filter_cons_of_pos (by simpa using hpx)]
        simpa using Nat.succ_lt_succ (ih hx)
      · rw [List.filter_cons_of_neg (by simpa using hpx)]
        exact Nat.lt_succ_of_lt (ih hx)

lemma length_filter_ne_id {q : List QEntry} {m : QEntry}
    (hnd : (q.map QEntry.id).Nodup) (hm : m ∈ q) :
    (q.filter (fun e => e.id ≠ m.id)).length + 1 = q.length := by
  induction q with
  | nil => cases hm
  | cons x xs ih =>
    simp only [List.map_cons, List.nodup_cons] at hnd
    rcases hnd with ⟨hx_not, hnd'⟩
    rcases List.mem_cons.mp hm with rfl | hx
    · have hfix : xs.filter (fun e => e.id ≠ m.id) = xs := by
        apply List.filter_eq_self.mpr
        intro e he
        have : e.id ≠ m.id := fun hc => hx_not (hc ▸ List.mem_map_of_mem QEntry.id he)
        simpa using this
      rw [List.filter_cons_of_neg (by simp), hfix]
      simp
    · have hxne : x.id ≠ m.id := by
        intro hc
        exact hx_not (hc ▸ List.mem_map_of_mem QEntry.id hx)
      rw [List.filter_cons_of_pos (by simpa using hxne)]
      simpa using ih hnd' hx

lemma enqueue_length_le {maxSize : ℕ} (hms : 1 ≤ maxSize) {q : List QEntry}
    (hq : q.length ≤ maxSize) (i : ℕ) (ts : ℤ) :
    (enqueue maxSize q i ts).length ≤ maxSize := by
  simp only [enqueue]
  by_cases hc : maxSize ≤ q.length
  · rcases q with _ | ⟨x, xs⟩
    · simp at hc; omega
    · obtain ⟨m, hm⟩ := oldest?_cons_isSome x xs
      rw [if_pos hc, hm]
      have hlt := length_filter_lt_of_mem (oldest?_mem hm)
      simp only [List.length_append, List.length_cons, List.length_nil]
      omega
  · rw [if_neg hc]
    simp only [List.length_append, List.length_cons, List.length_nil]
    omega

lemma mark_failed_length_le (q : List QEntry) (sid maxRetries : ℕ) :
    (mark_failed q sid maxRetries).1.length ≤ q.length := by
  simp only [mark_failed]
  split
  · split
    · calc ((q.map _).filter _).length
          ≤ (q.map _).length := List.length_filter_le _ _
        _ = q.length := List.length_map _ _
    · simp
  · simp

lemma q_apply_length_le {maxSize : ℕ} (hms : 1 ≤ maxSize) {q : List QEntry}
    (hq : q.length ≤ maxSize) (op : QOp) :
    (q_apply maxSize q op).length ≤ maxSize := by
  cases op with
  | enq i ts => exact enqueue_length_le hms hq i ts
  | sent i => exact le_trans (List.length_filter_le _ _) hq
  | failed i m => exact le_trans (mark_failed_length_le q i m) hq

lemma run_queue_length_le {maxSize : ℕ} (hms : 1 ≤ maxSize) :
    ∀ (ops : List QOp) (q : List QEntry), q.length ≤ maxSize →
      (run_queue maxSize ops q).length ≤ maxSize := by
  intro ops
  induction ops with
  | nil => intro q hq; exact hq
  | cons op rest ih =>
    intro q hq
    exact ih _ (q_apply_length_le hms hq op)

/-! ### Sort lemmas for `dequeue` -/

lemma mem_insert_by_ts {x e : QEntry} : ∀ {l : List QEntry},
    x ∈ insert_by_ts e l ↔ x = e ∨ x ∈ l := by
  intro l
  induction l with
  | nil => simp [insert_by_ts]
  | cons y ys ih =>
    unfold insert_by_ts
    split
    · simp
    · simp only [List.mem_cons, ih]
      tauto

lemma length_insert_by_ts (e : QEntry) : ∀ (l : List QEntry),
    (insert_by_ts e l).length = l.length + 1 := by
  intro l
  induction l with
  | nil => rfl
  | cons y ys ih =>
    unfold insert_by_ts
    split
    · simp
    · simp [ih]

lemma mem_sort_by_ts {x : QEntry} : ∀ {l : List QEntry},
    x ∈ sort_by_ts l ↔ x ∈ l := by
  intro l
  induction l with
  | nil => simp [sort_by_ts]
  | cons y ys ih =>
    unfold sort_by_ts
    rw [mem_insert_by_ts]
    simp [ih]

lemma length_sort_by_ts : ∀ (l : List QEntry),
    (sort_by_ts l).length = l.length := by
  intro l
  induction l with
  | nil => rfl
  | cons y ys ih =>
    unfold sort_by_ts
    rw [length_insert_by_ts, ih]
    rfl

lemma mem_dequeue_all {x : QEntry} {l : List QEntry} (hx : x ∈ l) :
    x ∈ dequeue l l.length := by
  unfold dequeue
  rw [← length_sort_by_ts l, List.take_length]
  exact mem_sort_by_ts.mpr hx

/-! ### `mark_failed` lemmas -/

lemma find?_bump_of_nodup {q : List QEntry} {e : QEntry} {sid : ℕ}
    (hnd : (q.map QEntry.id).Nodup) (he : e ∈ q) (hid : e.id = sid) :
    (q.map fun x => if x.id = sid then { x with retry := x.retry + 1 } else x).find?
        (fun x => x.id == sid) =
      some { e with retry := e.retry + 1 } := by
  induction q with
  | nil => cases he
  | cons x xs ih =>
    simp only [List.map_cons, List.nodup_cons] at hnd
    rcases hnd with ⟨hx_not, hnd'⟩
    rcases List.mem_cons.mp he with rfl | hx
    · rw [List.map_cons, if_pos hid, List.find?_cons_of_pos]
      simp [hid]
    · have hxid : x.id ≠ sid := by
        intro hc
        exact hx_not (by rw [hc, ← hid]; exact List.mem_map_of_mem QEntry.id hx)
      rw [List.map_cons, if_neg hxid, List.find?_cons_of_neg _ (by simp [hxid])]
      exact ih hnd' hx

lemma find_count_increment (db : List SRule) (rid : ℕ) :
    find_count (increment_match_count db rid) rid =
      (find_count db rid).map (· + 1) := by
  induction db with
  | nil => rfl
  | cons x xs ih =>
    simp only [increment_match_count, find_count, List.map_cons] at *
    by_cases hx : x.id = rid
    · rw [if_pos hx,
        List.find?_cons_of_pos _ (by simp [hx]),
        List.find?_cons_of_pos _ (by simp [hx])]
      rfl
    · rw [if_neg hx,
        List.find?_cons_of_neg _ (by simp [hx]),
        List.find?_cons_of_neg _ (by simp [hx])]
      exact ih

lemma load_rules_pred {now : ℤ} {r : SRule} :
    (r.enabled && (match r.expires_at with
      | none => true
      | some t => decide (now < t))) = true ↔
    r.enabled = true ∧ (∀ t, r.expires_at = some t → now < t) := by
  rw [Bool.and_eq_true]
  constructor
  · rintro ⟨he, hexp⟩
    refine ⟨he, fun t ht => ?_⟩
    rw [ht] at hexp
    exact of_decide_eq_true hexp
  · rintro ⟨he, hexp⟩
    refine ⟨he, ?_⟩
    rcases ht : r.expires_at with _ | t
    · rfl
    · exact decide_eq_true (hexp t ht)

lemma matches_rule_iff {msg node : String} {r : SRule} :
    matches_rule msg node r = true ↔
      (r.node_ip = none ∨ r.node_ip = some node) ∧
      isSubstr (lower_str r.match_text) (lower_str msg) = true := by
  unfold matches_rule
  rw [Bool.and_eq_true]
  constructor
  · rintro ⟨hn, hs⟩
    refine ⟨?_, hs⟩
    rcases hip : r.node_ip with _ | nip
    · exact Or.inl rfl
    · rw [hip] at hn
      have hb : nip = node := beq_iff_eq.mp hn
      exact Or.inr (by rw [hb])
  · rintro ⟨hn, hs⟩
    refine ⟨?_, hs⟩
    rcases hn with hn | hn
    · rw [hn]
    · rw [hn]
      exact beq_self_eq_true node

lemma monitor_iter_gen (contents : ℕ → List String) (enabled : Bool)
    (st : TailState) : (monitor_iter contents enabled st).1.gen = st.gen := by
  unfold monitor_iter
  split
  · rfl
  · split <;> rfl

lemma apply_update_fields_spec (f : MonFile) (d : UpdateData) :
    (apply_update_fields f d).1.id = f.id ∧
    (apply_update_fields f d).1.auto_monitor = f.auto_monitor ∧
    ((apply_update_fields f d).1.enabled = f.enabled ∨
      d.enabled = some (apply_update_fields f d).1.enabled) := by
  rcases d with ⟨dl, dp, de⟩
  rcases dl with _ | l <;> rcases dp with _ | p <;> rcases de with _ | e <;>
    simp only [apply_update_fields] <;> (try split) <;> simp

lemma update_files_step (fid : String) (d : UpdateData) :
    ∀ (files : List MonFile),
      (∀ f ∈ files, f.auto_monitor = true → f.enabled = true) →
      (∀ g ∈ (update_files fid d files).1, g.auto_monitor = true → g.enabled = true) ∧
      (∀ f ∈ files, f.auto_monitor = true →
        ∃ g ∈ (update_files fid d files).1, g.id = f.id ∧ g.auto_monitor = true ∧
          g.enabled = true) := by
  intro files
  induction files with
  | nil =>
    intro _
    exact ⟨fun g hg => absurd hg (List.not_mem_nil g),
           fun f hf => absurd hf (List.not_mem_nil f)⟩
  | cons x xs ih =>
    intro hinv
    have hinv' : ∀ f ∈ xs, f.auto_monitor = true → f.enabled = true :=
      fun f hf => hinv f (List.mem_cons_of_mem x hf)
    obtain ⟨ih1, ih2⟩ := ih hinv'
    unfold update_files
    by_cases hid : (x.id == fid) = true
    · rw [if_pos hid]
      by_cases hrej : x.auto_monitor = true ∧ d.enabled = some false
      · rw [if_pos hrej]
        exact ⟨hinv, fun f hf hauto => ⟨f, hf, rfl, hauto, hinv f hf hauto⟩⟩
      · rw [if_neg hrej]
        obtain ⟨hfid, hfauto, hfen⟩ := apply_update_fields_spec x d
        have hen_true : x.auto_monitor = true →
            (apply_update_fields x d).1.enabled = true := by
          intro hauto
          rcases hfen with he | he
          · rw [he]; exact hinv x (List.mem_cons_self x xs) hauto
          · cases hb : (apply_update_fields x d).1.enabled
            · rw [hb] at he
              exact absurd ⟨hauto, he⟩ hrej
            · rfl
        constructor
        · intro g hg hauto
          rcases List.mem_cons.mp hg with rfl | hgx
          · exact hen_true (hfauto ▸ hauto)
          · exact hinv' g hgx hauto
        · intro f hf hauto
          rcases List.mem_cons.mp hf with rfl | hfx
          · exact ⟨(apply_update_fields f d).1,
              List.mem_cons_self _ _, hfid, hfauto.trans hauto, hen_true hauto⟩
          · exact ⟨f, List.mem_cons_of_mem _ hfx, rfl, hauto, hinv' f hfx hauto⟩
    · rw [if_neg hid]
      constructor
      · intro g hg hauto
        rcases List.mem_cons.mp hg with rfl | hgx
        · exact hinv g (List.mem_cons_self _ _) hauto
        · exact ih1 g hgx hauto
      · intro f hf hauto
        rcases List.mem_cons.mp hf with rfl | hfx
        · exact ⟨f, List.mem_cons_self _ _, rfl, hauto,
            hinv f (List.mem_cons_self _ _) hauto⟩
        · obtain ⟨g, hg, hgid, hgauto, hgen⟩ := ih2 f hfx hauto
          exact ⟨g, List.mem_cons_of_mem _ hg, hgid, hgauto, hgen⟩

lemma update_monitored_step (files : List MonFile) (fid : String) (d : UpdateData)
    (hinv : ∀ f ∈ files, f.auto_monitor = true → f.enabled = true) :
    (∀ g ∈ (update_monitored_file files fid d).1,
      g.auto_monitor = true → g.enabled = true) ∧
    (∀ f ∈ files, f.auto_monitor = true →
      ∃ g ∈ (update_monitored_file files fid d).1, g.id = f.id ∧
        g.auto_monitor = true ∧ g.enabled = true) := by
  unfold update_monitored_file
  split
  · exact ⟨hinv, fun f hf hauto => ⟨f, hf, rfl, hauto, hinv f hf hauto⟩⟩
  · exact update_files_step fid d files hinv

lemma delete_files_step (fid : String) :
    ∀ (files : List MonFile),
      (∀ g ∈ (delete_files fid files).1, g ∈ files) ∧
      (∀ f ∈ files, f.auto_monitor = true → f ∈ (delete_files fid files).1) := by
  intro files
  induction files with
  | nil =>
    exact ⟨fun g hg => absurd hg (List.not_mem_nil g),
           fun f hf => absurd hf (List.not_mem_nil f)⟩
  | cons x xs ih =>
    obtain ⟨ih1, ih2⟩ := ih
    unfold delete_files
    by_cases hid : (x.id == fid) = true
    · rw [if_pos hid]
      by_cases hauto : x.auto_monitor = true
      · rw [if_pos hauto]
        exact ⟨fun g hg => hg, fun f hf _ => hf⟩
      · rw [if_neg hauto]
        constructor
        · exact fun g hg => List.mem_cons_of_mem x hg
        · intro f hf hfauto
          rcases List.mem_cons.mp hf with rfl | hfx
          · exact absurd hfauto hauto
          · exact hfx
    · rw [if_neg hid]
      constructor
      · intro g hg
        rcases List.mem_cons.mp hg with rfl | hgx
        · exact List.mem_cons_self _ _
        · exact List.mem_cons_of_mem x (ih1 g hgx)
      · intro f hf hfauto
        rcases List.mem_cons.mp hf with rfl | hfx
        · exact List.mem_cons_self _ _
        · exact List.mem_cons_of_mem x (ih2 f hfx hfauto)

lemma api_apply_step (files : List MonFile) (op : ApiOp)
    (hinv : ∀ f ∈ files, f.auto_monitor = true → f.enabled = true) :
    (∀ g ∈ api_apply files op, g.auto_monitor = true → g.enabled = true) ∧
    (∀ f ∈ files, f.auto_monitor = true →
      ∃ g ∈ api_apply files op, g.id = f.id ∧ g.auto_monitor = true ∧
        g.enabled = true) := by
  cases op with
  | put fid d => exact update_monitored_step files fid d hinv
  | del fid =>
    obtain ⟨h1, h2⟩ := delete_files_step fid files
    constructor
    · exact fun g hg => hinv g (h1 g hg)
    · exact fun f hf hauto => ⟨f, h2 f hf hauto, rfl, hauto, hinv f hf hauto⟩

lemma run_api_auto :
    ∀ (ops : List ApiOp) (files : List MonFile),
      (∀ f ∈ files, f.auto_monitor = true → f.enabled = true) →
      (∀ g ∈ run_api ops files, g.auto_monitor = true → g.enabled = true) ∧
      (∀ f ∈ files, f.auto_monitor = true →
        ∃ g ∈ run_api ops files, g.id = f.id ∧ g.auto_monitor = true ∧
          g.enabled = true) := by
  intro ops
  induction ops with
  | nil =>
    intro files hinv
    exact ⟨hinv, fun f hf hauto => ⟨f, hf, rfl, hauto, hinv f hf hauto⟩⟩
  | cons op rest ih =>
    intro files hinv
    obtain ⟨hstep1, hstep2⟩ := api_apply_step files op hinv
    obtain ⟨hrun1, hrun2⟩ := ih (api_apply files op) hstep1
    refine ⟨hrun1, ?_⟩
    intro f hf hauto
    obtain ⟨g1, hg1, hgid1, hgauto1, _⟩ := hstep2 f hf hauto
    obtain ⟨g2, hg2, hgid2, hgauto2, hgen2⟩ := hrun2 g1 hg1 hgauto1
    exact ⟨g2, hg2, hgid2.trans hgid1, hgauto2, hgen2⟩

lemma delete_files_reject {fid : String} {f : MonFile}
    (hfid : (f.id == fid) = true) (hauto : f.auto_monitor = true) :
    ∀ (pre : List MonFile), (∀ g ∈ pre, (g.id == fid) = false) →
      ∀ (post : List MonFile),
        delete_files fid (pre ++ f :: post) = (pre ++ f :: post, 400) := by
  intro pre
  induction pre with
  | nil =>
    intro _ post
    simp only [List.nil_append]
    unfold delete_files
    rw [if_pos hfid, if_pos hauto]
  | cons x xs ih =>
    intro hpre post
    have hx := hpre x (List.mem_cons_self x xs)
    simp only [List.cons_append]
    unfold delete_files
    rw [if_neg (by simp [hx]), ih (fun g hg => hpre g (List.mem_cons_of_mem x hg)) post]

lemma update_files_reject {fid : String} {f : MonFile} {d : UpdateData}
    (hfid : (f.id == fid) = true) (hauto : f.auto_monitor = true)
    (hde : d.enabled = some false) :
    ∀ (pre : List MonFile), (∀ g ∈ pre, (g.id == fid) = false) →
      ∀ (post : List MonFile),
        update_files fid d (pre ++ f :: post) = (pre ++ f :: post, 400) := by
  intro pre
  induction pre with
  | nil =>
    intro _ post
    simp only [List.nil_append]
    unfold update_files
    rw [if_pos hfid, if_pos ⟨hauto, hde⟩]
  | cons x xs ih =>
    intro hpre post
    have hx := hpre x (List.mem_cons_self x xs)
    simp only [List.cons_append]
    unfold update_files
    rw [if_neg (by simp [hx]), ih (fun g hg => hpre g (List.mem_cons_of_mem x hg)) post]

lemma eq_of_mem_of_id_eq {q : List QEntry} (hnd : (q.map QEntry.id).Nodup)
    {a b : QEntry} (ha : a ∈ q) (hb : b ∈ q) (hab : a.id = b.id) : a = b :=
  List.inj_on_of_nodup_map hnd ha hb hab

lemma mark_failed_found {q : List QEntry} {e : QEntry} {sid : ℕ} (maxR : ℕ)
    (hnd : (q.map QEntry.id).Nodup) (he : e ∈ q) (hid : e.id = sid) :
    mark_failed q sid maxR =
      if maxR ≤ e.retry + 1 then
        ((q.map fun x => if x.id = sid then { x with retry := x.retry + 1 } else x).filter
          (fun x => x.id ≠ sid), false)
      else
        ((q.map fun x => if x.id = sid then { x with retry := x.retry + 1 } else x), true) := by
  simp only [mark_failed]
  rw [find?_bump_of_nodup hnd he hid]

end Daemon

/-- Claim C1 (code bug in `_handle_threshold_alert`): with `disk_critical`
configured at threshold 90, duration 0, cooldown 7200, a single over-threshold
disk sample (92%) from the fresh state does NOT emit an alert; the handler
only records `alert_start_times` and returns, deferring emission to the next
over-threshold sample — despite `duration = 0`. -/
theorem disk_duration_zero_first_sample_no_emission :
    Daemon.disk_critical.duration = 0 ∧
    Daemon.disk_critical.threshold ≤ 92 ∧
    Daemon.check_metric_alert Daemon.disk_critical Daemon.disk_high
        Daemon.MetricAlertStates.fresh 92 1000 =
      (⟨⟨some 1000, none⟩, ⟨none, none⟩⟩, false, false) := by
  decide

/-- Claim C6: for every alert kind configuration and every sample sequence
with positive sample instants, consecutive emission instants of
`_handle_threshold_alert` are at least `cooldown` seconds apart. -/
theorem alert_cooldown_between_emissions (cfg : Daemon.AlertConfig)
    (samples : List (ℤ × Bool)) (hpos : ∀ s ∈ samples, 0 < s.1) :
    (Daemon.alert_run cfg Daemon.AlertState.fresh samples).Chain'
      (fun a b => cfg.cooldown ≤ b - a) :=
  (Daemon.alert_run_chain cfg samples Daemon.AlertState.fresh hpos).1

/-- Witness for C6 at the disk_critical configuration on a concrete sample
sequence producing two emissions (at instants 6 and 8001). -/
theorem alert_cooldown_between_emissions_witness :
    Daemon.alert_run Daemon.disk_critical Daemon.AlertState.fresh
        [((5 : ℤ), true), (6, true), (8000, true), (8001, true)] = [6, 8001] ∧
    List.Chain' (fun a b => Daemon.disk_critical.cooldown ≤ b - a)
      (Daemon.alert_run Daemon.disk_critical Daemon.AlertState.fresh
        [((5 : ℤ), true), (6, true), (8000, true), (8001, true)]) :=
  ⟨by decide,
   alert_cooldown_between_emissions Daemon.disk_critical
     [((5 : ℤ), true), (6, true), (8000, true), (8001, true)] (by decide)⟩

/-- Counterexample to claim C8: a CPU sample of 95% meets `cpu_high`'s
threshold (75) and its pending breach (started at 100, now 800) has exceeded
`cpu_high.duration` (600), yet `check_cpu_alert` advances only the
`cpu_critical` state machine: the `cpu_high` state is left completely
untouched and no high alert is emitted.  The two rules are therefore not
evaluated independently on the sample. -/
theorem cpu_high_not_advanced_counterexample :
    Daemon.cpu_high.threshold ≤ 95 ∧
    Daemon.cpu_high.duration ≤ 800 - 100 ∧
    Daemon.check_metric_alert Daemon.cpu_critical Daemon.cpu_high
        ⟨Daemon.AlertState.fresh, ⟨some 100, none⟩⟩ 95 800 =
      (⟨⟨some 800, none⟩, ⟨some 100, none⟩⟩, false, false) := by
  decide

/-- Claim C8 as amended: the critical and high thresholds are evaluated in an
exclusive if/elif cascade.  A sample at or above the critical threshold
advances only the critical rule (the high rule's state is untouched and it
cannot emit); a sample at or above the high threshold but below critical
advances only the high rule; a sample under both thresholds resets both
rules' breach-start states (and leaves both `last_alert_sent` values). -/
theorem check_metric_alert_cascade (ccfg hcfg : Daemon.AlertConfig)
    (sts : Daemon.MetricAlertStates) (value now : ℤ) :
    (ccfg.threshold ≤ value →
      (Daemon.check_metric_alert ccfg hcfg sts value now).1.high = sts.high ∧
      (Daemon.check_metric_alert ccfg hcfg sts value now).2.2 = false ∧
      (Daemon.check_metric_alert ccfg hcfg sts value now).1.crit =
        (Daemon.handle_threshold_alert ccfg sts.crit now).1 ∧
      (Daemon.check_metric_alert ccfg hcfg sts value now).2.1 =
        (Daemon.handle_threshold_alert ccfg sts.crit now).2) ∧
    (value < ccfg.threshold → hcfg.threshold ≤ value →
      (Daemon.check_metric_alert ccfg hcfg sts value now).1.crit = sts.crit ∧
      (Daemon.check_metric_alert ccfg hcfg sts value now).2.1 = false ∧
      (Daemon.check_metric_alert ccfg hcfg sts value now).1.high =
        (Daemon.handle_threshold_alert hcfg sts.high now).1 ∧
      (Daemon.check_metric_alert ccfg hcfg sts value now).2.2 =
        (Daemon.handle_threshold_alert hcfg sts.high now).2) ∧
    (value < ccfg.threshold → value < hcfg.threshold →
      Daemon.truthy (Daemon.check_metric_alert ccfg hcfg sts value now).1.crit.alert_start_time
          = false ∧
      Daemon.truthy (Daemon.check_metric_alert ccfg hcfg sts value now).1.high.alert_start_time
          = false ∧
      (Daemon.check_metric_alert ccfg hcfg sts value now).1.crit.last_alert_sent =
        sts.crit.last_alert_sent ∧
      (Daemon.check_metric_alert ccfg hcfg sts value now).1.high.last_alert_sent =
        sts.high.last_alert_sent ∧
      (Daemon.check_metric_alert ccfg hcfg sts value now).2.1 = false ∧
      (Daemon.check_metric_alert ccfg hcfg sts value now).2.2 = false) := by
  refine ⟨fun hc => ?_, fun hc hh => ?_, fun hc hh => ?_⟩
  · have he : Daemon.check_metric_alert ccfg hcfg sts value now =
        ({ sts with crit := (Daemon.handle_threshold_alert ccfg sts.crit now).1 },
          (Daemon.handle_threshold_alert ccfg sts.crit now).2, false) := by
      simp only [Daemon.check_metric_alert, if_pos hc]
    rw [he]
    exact ⟨rfl, rfl, rfl, rfl⟩
  · have he : Daemon.check_metric_alert ccfg hcfg sts value now =
        ({ sts with high := (Daemon.handle_threshold_alert hcfg sts.high now).1 },
          false, (Daemon.handle_threshold_alert hcfg sts.high now).2) := by
      simp only [Daemon.check_metric_alert, if_neg (not_le.mpr hc), if_pos hh]
    rw [he]
    exact ⟨rfl, rfl, rfl, rfl⟩
  · have he : Daemon.check_metric_alert ccfg hcfg sts value now =
        (⟨Daemon.reset_alert sts.crit, Daemon.reset_alert sts.high⟩, false, false) := by
      simp only [Daemon.check_metric_alert, if_neg (not_le.mpr hc),
        if_neg (not_le.mpr hh)]
    rw [he]
    exact ⟨Daemon.truthy_reset_alert _, Daemon.truthy_reset_alert _,
      Daemon.reset_alert_last _, Daemon.reset_alert_last _, rfl, rfl⟩

/-- Witness for the amended C8 theorem at concrete inputs (critical branch at
value 95, high branch at value 80, reset branch at value 10 for the CPU
configurations). -/
theorem check_metric_alert_cascade_witness :
    (Daemon.check_metric_alert Daemon.cpu_critical Daemon.cpu_high
        ⟨Daemon.AlertState.fresh, ⟨some 100, none⟩⟩ 95 800).1.high =
      (⟨some 100, none⟩ : Daemon.AlertState) ∧
    (Daemon.check_metric_alert Daemon.cpu_critical Daemon.cpu_high
        ⟨⟨some 100, none⟩, Daemon.AlertState.fresh⟩ 80 800).1.crit =
      (⟨some 100, none⟩ : Daemon.AlertState) ∧
    Daemon.truthy (Daemon.check_metric_alert Daemon.cpu_critical Daemon.cpu_high
        ⟨⟨some 100, none⟩, ⟨some 200, none⟩⟩ 10 800).1.crit.alert_start_time = false :=
  ⟨(check_metric_alert_cascade Daemon.cpu_critical Daemon.cpu_high
      ⟨Daemon.AlertState.fresh, ⟨some 100, none⟩⟩ 95 800).1 (by decide) |>.1,
   ((check_metric_alert_cascade Daemon.cpu_critical Daemon.cpu_high
      ⟨⟨some 100, none⟩, Daemon.AlertState.fresh⟩ 80 800).2.1 (by decide) (by decide)).1,
   ((check_metric_alert_cascade Daemon.cpu_critical Daemon.cpu_high
      ⟨⟨some 100, none⟩, ⟨some 200, none⟩⟩ 10 800).2.2 (by decide) (by decide)).1⟩

/-- Claim C5: starting from a queue of size at most `max_size` (≥ 1), no
sequence of `enqueue`/`mark_sent`/`mark_failed` operations makes the size
exceed `max_size`; and an `enqueue` performed at size `max_size` (with the
primary-key uniqueness of ids) deletes exactly one entry — an oldest one —
and then inserts the new entry, leaving the size at `max_size`. -/
theorem queue_size_bounded (maxSize : ℕ) (hms : 1 ≤ maxSize) :
    (∀ (ops : List Daemon.QOp) (q : List Daemon.QEntry), q.length ≤ maxSize →
      (Daemon.run_queue maxSize ops q).length ≤ maxSize) ∧
    (∀ (q : List Daemon.QEntry) (newId : ℕ) (ts : ℤ), q.length = maxSize →
      (q.map Daemon.QEntry.id).Nodup →
      ∃ m, Daemon.oldest? q = some m ∧ m ∈ q ∧ (∀ e ∈ q, m.ts ≤ e.ts) ∧
        Daemon.enqueue maxSize q newId ts =
          q.filter (fun e => e.id ≠ m.id) ++ [⟨newId, ts, 0⟩] ∧
        (q.filter (fun e => e.id ≠ m.id)).length + 1 = maxSize ∧
        (Daemon.enqueue maxSize q newId ts).length = maxSize) := by
  refine ⟨Daemon.run_queue_length_le hms, ?_⟩
  intro q newId ts hlen hnd
  rcases q with _ | ⟨x, xs⟩
  · rw [List.length_nil] at hlen; omega
  · obtain ⟨m, hm⟩ := Daemon.oldest?_cons_isSome x xs
    have hmem := Daemon.oldest?_mem hm
    have hfl := Daemon.length_filter_ne_id hnd hmem
    have henq : Daemon.enqueue maxSize (x :: xs) newId ts =
        (x :: xs).filter (fun e => e.id ≠ m.id) ++ [⟨newId, ts, 0⟩] := by
      simp only [Daemon.enqueue]
      rw [if_pos (le_of_eq hlen.symm), hm]
    refine ⟨m, hm, hmem, Daemon.oldest?_min hm, henq, ?_, ?_⟩
    · rw [hfl]; exact hlen
    · rw [henq, List.length_append, List.length_singleton]
      rw [hfl] at *
      omega

/-- Witness for C5 at `max_size = 3` on the queue `[1, 2, 3]` (spec
scenario 4): a run of enqueue/mark_failed/mark_sent stays within bound, and
the full-queue enqueue drops the oldest entry (id 1). -/
theorem queue_size_bounded_witness :
    (Daemon.run_queue 3 [.enq 4 4, .failed 4 3, .sent 2]
      [⟨1, 1, 0⟩, ⟨2, 2, 0⟩, ⟨3, 3, 0⟩]).length ≤ 3 ∧
    (∃ m, Daemon.oldest? ([⟨1, 1, 0⟩, ⟨2, 2, 0⟩, ⟨3, 3, 0⟩] : List Daemon.QEntry) = some m ∧
      m ∈ ([⟨1, 1, 0⟩, ⟨2, 2, 0⟩, ⟨3, 3, 0⟩] : List Daemon.QEntry) ∧
      (∀ e ∈ ([⟨1, 1, 0⟩, ⟨2, 2, 0⟩, ⟨3, 3, 0⟩] : List Daemon.QEntry), m.ts ≤ e.ts) ∧
      Daemon.enqueue 3 [⟨1, 1, 0⟩, ⟨2, 2, 0⟩, ⟨3, 3, 0⟩] 4 4 =
        ([⟨1, 1, 0⟩, ⟨2, 2, 0⟩, ⟨3, 3, 0⟩] : List Daemon.QEntry).filter
          (fun e => e.id ≠ m.id) ++ [⟨4, 4, 0⟩] ∧
      (([⟨1, 1, 0⟩, ⟨2, 2, 0⟩, ⟨3, 3, 0⟩] : List Daemon.QEntry).filter
          (fun e => e.id ≠ m.id)).length + 1 = 3 ∧
      (Daemon.enqueue 3 [⟨1, 1, 0⟩, ⟨2, 2, 0⟩, ⟨3, 3, 0⟩] 4 4).length = 3) :=
  ⟨(queue_size_bounded 3 (by decide)).1 [.enq 4 4, .failed 4 3, .sent 2]
      [⟨1, 1, 0⟩, ⟨2, 2, 0⟩, ⟨3, 3, 0⟩] (by decide),
   (queue_size_bounded 3 (by decide)).2 [⟨1, 1, 0⟩, ⟨2, 2, 0⟩, ⟨3, 3, 0⟩] 4 4
      (by decide) (by decide)⟩

/-- Counterexample to claim C7: `mark_failed` on an entry whose retry count
is 2 with `max_retries = 3` removes the entry (returns `false`), although the
incremented retry count 3 does not go beyond (is not strictly greater than)
`max_retries = 3`.  Removal happens at `retry_count >= max_retries`, not only
beyond it. -/
theorem mark_failed_boundary_counterexample :
    Daemon.mark_failed [⟨7, 0, 2⟩] 7 3 = ([], false) ∧ ¬ ((2 : ℕ) + 1 > 3) := by
  decide

/-- Claim C7 as amended: `mark_failed(id, max_retries)` increments the
entry's retry count by exactly 1 and retry counts never decrease; the entry
is removed exactly when the incremented count reaches or exceeds
`max_retries`; while the incremented count is strictly below `max_retries`
the entry remains (return value `true`) and is returned by a later
`dequeue`. -/
theorem mark_failed_retry_spec (q : List Daemon.QEntry) (sid maxR : ℕ)
    (e : Daemon.QEntry) (hnd : (q.map Daemon.QEntry.id).Nodup) (he : e ∈ q)
    (hid : e.id = sid) :
    (∀ x ∈ (Daemon.mark_failed q sid maxR).1, x.id = sid → x.retry = e.retry + 1) ∧
    (∀ x ∈ (Daemon.mark_failed q sid maxR).1, ∃ y ∈ q, y.id = x.id ∧
      y.retry ≤ x.retry ∧ (x.retry = y.retry ∨ x.retry = y.retry + 1)) ∧
    (maxR ≤ e.retry + 1 →
      (Daemon.mark_failed q sid maxR).2 = false ∧
      ∀ x ∈ (Daemon.mark_failed q sid maxR).1, x.id ≠ sid) ∧
    (e.retry + 1 < maxR →
      (Daemon.mark_failed q sid maxR).2 = true ∧
      { e with retry := e.retry + 1 } ∈ (Daemon.mark_failed q sid maxR).1 ∧
      { e with retry := e.retry + 1 } ∈
        Daemon.dequeue (Daemon.mark_failed q sid maxR).1
          (Daemon.mark_failed q sid maxR).1.length) := by
  rw [Daemon.mark_failed_found maxR hnd he hid]
  by_cases hcase : maxR ≤ e.retry + 1
  · rw [if_pos hcase]
    refine ⟨?_, ?_, fun _ => ⟨rfl, ?_⟩, fun hlt => absurd hcase (by omega)⟩
    · intro x hx hxid
      have hne : x.id ≠ sid := by simpa using (List.mem_filter.mp hx).2
      exact absurd hxid hne
    · intro x hx
      obtain ⟨y, hy, hxy⟩ := List.mem_map.mp (List.mem_filter.mp hx).1
      by_cases hyid : y.id = sid
      · rw [if_pos hyid] at hxy
        exact ⟨y, hy, by rw [← hxy], by rw [← hxy]; exact Nat.le_succ _,
          Or.inr (by rw [← hxy])⟩
      · rw [if_neg hyid] at hxy
        exact ⟨y, hy, by rw [← hxy], le_of_eq (by rw [← hxy]),
          Or.inl (by rw [← hxy])⟩
    · intro x hx
      simpa using (List.mem_filter.mp hx).2
  · rw [if_neg hcase]
    have hbump : (fun x => if x.id = sid then { x with retry := x.retry + 1 } else x) e
        = { e with retry := e.retry + 1 } := by simp [hid]
    refine ⟨?_, ?_, fun hle => absurd hle hcase, fun _ => ⟨rfl, ?_, ?_⟩⟩
    · intro x hx hxid
      obtain ⟨y, hy, hxy⟩ := List.mem_map.mp hx
      by_cases hyid : y.id = sid
      · have hye : y = e := Daemon.eq_of_mem_of_id_eq hnd hy he (hyid.trans hid.symm)
        rw [if_pos hyid] at hxy
        rw [← hxy, hye]
      · rw [if_neg hyid] at hxy
        exact absurd (hxy ▸ hxid) hyid
    · intro x hx
      obtain ⟨y, hy, hxy⟩ := List.mem_map.mp hx
      by_cases hyid : y.id = sid
      · rw [if_pos hyid] at hxy
        exact ⟨y, hy, by rw [← hxy], by rw [← hxy]; exact Nat.le_succ _,
          Or.inr (by rw [← hxy])⟩
      · rw [if_neg hyid] at hxy
        exact ⟨y, hy, by rw [← hxy], le_of_eq (by rw [← hxy]),
          Or.inl (by rw [← hxy])⟩
    · exact hbump ▸ List.mem_map_of_mem _ he
    · exact Daemon.mem_dequeue_all (hbump ▸ List.mem_map_of_mem _ he)

/-- Witness for the amended C7 theorem: entry id 7 at retry count 1 with
`max_retries = 3` survives `mark_failed` with its count bumped to 2 and is
returned by a later full dequeue. -/
theorem mark_failed_retry_spec_witness :
    (⟨7, 0, 2⟩ : Daemon.QEntry) ∈ (Daemon.mark_failed [⟨7, 0, 1⟩] 7 3).1 ∧
    (⟨7, 0, 2⟩ : Daemon.QEntry) ∈
      Daemon.dequeue (Daemon.mark_failed [⟨7, 0, 1⟩] 7 3).1
        (Daemon.mark_failed [⟨7, 0, 1⟩] 7 3).1.length :=
  ⟨((mark_failed_retry_spec [⟨7, 0, 1⟩] 7 3 ⟨7, 0, 1⟩ (by decide) (by decide)
      rfl).2.2.2 (by decide)).2.1,
   ((mark_failed_retry_spec [⟨7, 0, 1⟩] 7 3 ⟨7, 0, 1⟩ (by decide) (by decide)
      rfl).2.2.2 (by decide)).2.2⟩

/-- Claim C2 (code bug in the poster loop): a queue entry whose POST receives
HTTP 400 is NOT removed as sent.  `post_with_retry` returns `False` for a
client error, so `_telemetry_post_loop` calls `mark_failed`: the retry count
is incremented (1 → 2 here) and the entry stays queued for another cycle.
`mark_sent` — what the spec prescribes for 4xx — would have removed it. -/
theorem client_error_marks_failed_not_sent :
    Daemon.telemetry_cycle_entry [⟨7, 0, 1⟩] ⟨7, 0, 1⟩
        (fun _ => Daemon.HttpAttempt.resp 400) = [⟨7, 0, 2⟩] ∧
    Daemon.mark_sent [⟨7, 0, 1⟩] 7 = [] := by
  refine ⟨?_, by decide⟩
  have hpost : Daemon.post_with_retry (fun _ => Daemon.HttpAttempt.resp 400) 1 = false := by
    rw [Daemon.post_with_retry]
    simp [Daemon.post_snapshot]
  simp only [Daemon.telemetry_cycle_entry]
  rw [hpost]
  decide

/-- Claim C3: `should_suppress(L, N)` (on the fresh-cache path) returns a
rule iff some enabled, non-expired rule in the store fits the node scope
(`node_ip` null or equal to N) and its lowered match text is a substring of
the lowered line; and the returned rule's row has its `match_count`
incremented by exactly 1 by the `UPDATE`. -/
theorem should_suppress_spec (db : List Daemon.SRule) (now : ℤ) (msg node : String) :
    ((Daemon.should_suppress msg node (Daemon.load_rules now db)).isSome ↔
      ∃ r ∈ db, r.enabled = true ∧
        (∀ t, r.expires_at = some t → now < t) ∧
        (r.node_ip = none ∨ r.node_ip = some node) ∧
        Daemon.isSubstr (Daemon.lower_str r.match_text) (Daemon.lower_str msg) = true) ∧
    (∀ r, Daemon.should_suppress msg node (Daemon.load_rules now db) = some r →
      r ∈ db ∧ Daemon.matches_rule msg node r = true ∧
      Daemon.find_count (Daemon.increment_match_count db r.id) r.id =
        (Daemon.find_count db r.id).map (· + 1)) := by
  constructor
  · unfold Daemon.should_suppress
    rw [List.find?_isSome]
    constructor
    · rintro ⟨r, hmem, hmatch⟩
      obtain ⟨hdb, hpred⟩ := List.mem_filter.mp hmem
      obtain ⟨hen, hexp⟩ := Daemon.load_rules_pred.mp hpred
      obtain ⟨hnode, hsub⟩ := Daemon.matches_rule_iff.mp hmatch
      exact ⟨r, hdb, hen, hexp, hnode, hsub⟩
    · rintro ⟨r, hdb, hen, hexp, hnode, hsub⟩
      exact ⟨r, List.mem_filter.mpr ⟨hdb, Daemon.load_rules_pred.mpr ⟨hen, hexp⟩⟩,
        Daemon.matches_rule_iff.mpr ⟨hnode, hsub⟩⟩
  · intro r hr
    have hmem := List.mem_of_find?_eq_some hr
    exact ⟨(List.mem_filter.mp hmem).1, List.find?_some hr,
      Daemon.find_count_increment db r.id⟩


/-- Witness for C3: a global-store rule matching the lowered line fires, and
its match count goes from 5 to 6. -/
theorem should_suppress_spec_witness :
    (Daemon.should_suppress "ERROR: disk full on /dev/sda1" "10.0.0.5"
        (Daemon.load_rules 100 Daemon.suppression_demo_db)).isSome ∧
    Daemon.find_count (Daemon.increment_match_count Daemon.suppression_demo_db 1) 1 =
      (Daemon.find_count Daemon.suppression_demo_db 1).map (· + 1) :=
  ⟨(should_suppress_spec Daemon.suppression_demo_db 100
      "ERROR: disk full on /dev/sda1" "10.0.0.5").1.mpr
      ⟨⟨1, "rule-1", "Disk Full", some "10.0.0.5", "until", some 200, true, 5⟩,
       by decide, rfl,
       by intro t ht; obtain rfl := Option.some.inj ht; decide,
       Or.inr rfl, by decide⟩,
   ((should_suppress_spec Daemon.suppression_demo_db 100
      "ERROR: disk full on /dev/sda1" "10.0.0.5").2
      ⟨1, "rule-1", "Disk Full", some "10.0.0.5", "until", some 200, true, 5⟩
      (by decide)).2.2⟩

/-- Counterexample to claim C10: the line "emergency" passes the
error-keyword gate (whole word `emergency`), is classified with severity
"info", but its priority is "critical", not "low": `emergency` is one of
`determine_priority`'s critical keywords, so the gate's extra keywords are
not all outside the priority classifier's keyword set, and this line is
emitted with priority critical. -/
theorem emergency_line_counterexample :
    Daemon.err_re_search "emergency" = true ∧
    Daemon.detect_severity "emergency" = "info" ∧
    Daemon.process_line "emergency" = some ⟨"emergency", "info", "critical"⟩ ∧
    Daemon.determine_priority "emergency" "info" ≠ "low" := by
  decide

/-- Claim C10 as amended: there do exist lines that pass the error-keyword
emission gate yet are classified severity "info" and priority "low" — the
gate keywords `alert`, and `emerg` as a standalone word, are matched by
neither the severity nor the priority classifier (`emergency`, by contrast,
is a critical-priority keyword). -/
theorem gate_passing_info_low_line :
    Daemon.err_re_search "alert" = true ∧
    Daemon.process_line "alert" = some ⟨"alert", "info", "low"⟩ ∧
    Daemon.word_occurs_aux "emerg".toList none (Daemon.lower_str "emerg raised") = true ∧
    Daemon.process_line "emerg raised" = some ⟨"emerg raised", "info", "low"⟩ := by
  decide

set_option maxRecDepth 4000 in
/-- Counterexample to claim C4: a rotated file is not picked up.  With the
handle still on generation 0 (fully read) and the path now holding
generation 1, 50 iterations of the monitor loop all read empty: the state —
in particular the handle's file — is unchanged and nothing is emitted, even
though the rotated-in file holds a line that would pass the gate.  The loop
body never re-opens the path. -/
theorem tailer_no_reopen_counterexample :
    Daemon.monitor_run Daemon.rot_contents true ⟨0, 1⟩ 50 = (⟨0, 1⟩, []) ∧
    Daemon.rot_contents 1 = ["new error line"] ∧
    Daemon.process_line "new error line" = some ⟨"new error line", "error", "high"⟩ := by
  decide

/-- Claim C4 as amended: on empty reads the monitor loop only sleeps and
retries `readline()` on the same open handle — the loop body contains no
re-open of the path.  The handle's file never changes under any run, and
from an at-end-of-file position the tailer's state and output stay fixed. -/
theorem monitor_loop_never_reopens :
    (∀ (contents : ℕ → List String) (enabled : Bool) (st : Daemon.TailState) (n : ℕ),
      (Daemon.monitor_run contents enabled st n).1.gen = st.gen) ∧
    (∀ (contents : ℕ → List String) (st : Daemon.TailState) (n : ℕ),
      (contents st.gen).length ≤ st.pos →
      Daemon.monitor_run contents true st n = (st, [])) := by
  constructor
  · intro contents enabled st n
    induction n generalizing st with
    | zero => rfl
    | succ n ih =>
      exact (ih _).trans (Daemon.monitor_iter_gen contents enabled st)
  · intro contents st n h
    induction n with
    | zero => rfl
    | succ n ih =>
      have hiter : Daemon.monitor_iter contents true st = (st, none) := by
        unfold Daemon.monitor_iter
        rw [if_neg (by simp), List.get?_eq_none.mpr h]
      rw [Daemon.monitor_run, hiter, ih]
      rfl

/-- Witness for the amended C4 theorem on the rotated-file scenario. -/
theorem monitor_loop_never_reopens_witness :
    Daemon.monitor_run Daemon.rot_contents true ⟨0, 1⟩ 7 = (⟨0, 1⟩, []) :=
  monitor_loop_never_reopens.2 Daemon.rot_contents ⟨0, 1⟩ 7 (by decide)


/-- Claim C9: across any sequence of PUT/DELETE requests against the
monitored-file endpoints (starting from a list whose auto-monitor entries are
enabled), every auto-monitor LogSource survives with its id, auto flag and
enabled state intact; moreover the DELETE endpoint answers 400 and leaves
the list unchanged when the matched file is auto-monitored, and the PUT
endpoint answers 400 and leaves the list unchanged when asked to set
`enabled: false` on an auto-monitored match. -/
theorem auto_monitor_protected :
    (∀ (ops : List Daemon.ApiOp) (files : List Daemon.MonFile),
      (∀ f ∈ files, f.auto_monitor = true → f.enabled = true) →
      ∀ f ∈ files, f.auto_monitor = true →
        ∃ g ∈ Daemon.run_api ops files, g.id = f.id ∧ g.auto_monitor = true ∧
          g.enabled = true) ∧
    (∀ (fid : String) (f : Daemon.MonFile) (pre post : List Daemon.MonFile),
      (f.id == fid) = true → f.auto_monitor = true →
      (∀ g ∈ pre, (g.id == fid) = false) →
      Daemon.delete_monitored_file (pre ++ f :: post) fid =
        (pre ++ f :: post, 400)) ∧
    (∀ (fid : String) (d : Daemon.UpdateData) (f : Daemon.MonFile)
        (pre post : List Daemon.MonFile),
      (f.id == fid) = true → f.auto_monitor = true → d.enabled = some false →
      (∀ g ∈ pre, (g.id == fid) = false) →
      Daemon.update_monitored_file (pre ++ f :: post) fid d =
        (pre ++ f :: post, 400)) := by
  refine ⟨?_, ?_, ?_⟩
  · intro ops files hinv f hf hauto
    exact (Daemon.run_api_auto ops files hinv).2 f hf hauto
  · intro fid f pre post hfid hauto hpre
    exact Daemon.delete_files_reject hfid hauto pre hpre post
  · intro fid d f pre post hfid hauto hde hpre
    unfold Daemon.update_monitored_file
    rw [if_neg (by rw [hde]; rintro ⟨-, -, hc⟩; cases hc)]
    exact Daemon.update_files_reject hfid hauto hde pre hpre post

/-- Witness for C9: on `Daemon.demo_files`, a sequence that tries to delete and
disable the auto-monitor source leaves it present and enabled, and both
rejection equations hold concretely. -/
theorem auto_monitor_protected_witness :
    (∃ g ∈ Daemon.run_api
        [.del "file_001", .put "file_001" ⟨none, none, some false⟩, .del "file_002"]
        Daemon.demo_files,
      g.id = "file_001" ∧ g.auto_monitor = true ∧ g.enabled = true) ∧
    Daemon.delete_monitored_file Daemon.demo_files "file_001" = (Daemon.demo_files, 400) ∧
    Daemon.update_monitored_file Daemon.demo_files "file_001" ⟨none, none, some false⟩ =
      (Daemon.demo_files, 400) :=
  ⟨auto_monitor_protected.1
      [.del "file_001", .put "file_001" ⟨none, none, some false⟩, .del "file_002"]
      Daemon.demo_files (by decide)
      ⟨"file_001", "/var/log/resolvix.log", "resolvix_daemon", "critical", true, true⟩
      (by decide) rfl,
   auto_monitor_protected.2.1 "file_001"
      ⟨"file_001", "/var/log/resolvix.log", "resolvix_daemon", "critical", true, true⟩
      [] [⟨"file_002", "/var/log/syslog", "system", "high", true, false⟩]
      rfl rfl (by intro g hg; cases hg),
   auto_monitor_protected.2.2 "file_001" ⟨none, none, some false⟩
      ⟨"file_001", "/var/log/resolvix.log", "resolvix_daemon", "critical", true, true⟩
      [] [⟨"file_002", "/var/log/syslog", "system", "high", true, false⟩]
      rfl rfl rfl (by intro g hg; cases hg)⟩
